import Mathlib

/-!
Shallow embedding of the ARM7TDMI ARM-mode instruction decoder
(`arm7tdmi/src/arm/arm_isa.rs`): condition decoding, format
classification, and field extraction on 32-bit instruction words.
Machine words are modelled as `Nat` with explicit truncation
(`% 2^w`) where the Rust code relies on `u32` wrap-around.
-/

namespace ArmDecode

/-- Errors of the decoder (`ArmError` in the source). -/
inductive ArmError where
  | UnknownInstructionFormat (w : Nat)
  | UndefinedConditionCode (c : Nat)
  | InvalidShiftType (c : Nat)
deriving DecidableEq, Repr

/-- Decidable equality for `Except`, so results can be checked on
concrete inputs. -/
instance exceptDecEq {ε α : Type} [DecidableEq ε] [DecidableEq α] :
    DecidableEq (Except ε α)
  | .error e, .error f =>
    if h : e = f then .isTrue (by rw [h]) else .isFalse (by simp [h])
  | .error _, .ok _ => .isFalse (by simp)
  | .ok _, .error _ => .isFalse (by simp)
  | .ok a, .ok b =>
    if h : a = b then .isTrue (by rw [h]) else .isFalse (by simp [h])

/-- The 15 named condition codes (`ArmCond` in the source). -/
inductive ArmCond where
  | Equal
  | NotEqual
  | UnsignedHigherOrSame
  | UnsignedLower
  | Negative
  | PositiveOrZero
  | Overflow
  | NoOverflow
  | UnsignedHigher
  | UnsignedLowerOrSame
  | GreaterOrEqual
  | LessThan
  | GreaterThan
  | LessThanOrEqual
  | Always
deriving DecidableEq, Fintype, Repr

/-- Numeric value of each condition, as assigned by the `enum` discriminants. -/
def ArmCond.toNat : ArmCond → Nat
  | .Equal => 0
  | .NotEqual => 1
  | .UnsignedHigherOrSame => 2
  | .UnsignedLower => 3
  | .Negative => 4
  | .PositiveOrZero => 5
  | .Overflow => 6
  | .NoOverflow => 7
  | .UnsignedHigher => 8
  | .UnsignedLowerOrSame => 9
  | .GreaterOrEqual => 10
  | .LessThan => 11
  | .GreaterThan => 12
  | .LessThanOrEqual => 13
  | .Always => 14

/-- Conversion from a numeric code (the derived `FromPrimitive::from_u8`). -/
def ArmCond.from_u8 : Nat → Option ArmCond
  | 0 => some .Equal
  | 1 => some .NotEqual
  | 2 => some .UnsignedHigherOrSame
  | 3 => some .UnsignedLower
  | 4 => some .Negative
  | 5 => some .PositiveOrZero
  | 6 => some .Overflow
  | 7 => some .NoOverflow
  | 8 => some .UnsignedHigher
  | 9 => some .UnsignedLowerOrSame
  | 10 => some .GreaterOrEqual
  | 11 => some .LessThan
  | 12 => some .GreaterThan
  | 13 => some .LessThanOrEqual
  | 14 => some .Always
  | _ => none

/-- The 13 instruction formats (`ArmInstructionFormat` in the source). -/
inductive ArmInstructionFormat where
  | BX
  | B_BL
  | MUL_MLA
  | MULL_MLAL
  | LDR_STR
  | LDR_STR_HS_REG
  | LDR_STR_HS_IMM
  | DP
  | LDM_STM
  | SWP
  | MRS
  | MSR_REG
  | MSR_FLAGS
deriving DecidableEq, Repr

/-- The 16 data-processing opcodes (`ArmOpCode` in the source). -/
inductive ArmOpCode where
  | AND
  | EOR
  | SUB
  | RSB
  | ADD
  | ADC
  | SBC
  | RSC
  | TST
  | TEQ
  | CMP
  | CMN
  | ORR
  | MOV
  | BIC
  | MVN
deriving DecidableEq, Repr

/-- Conversion from a numeric code (the derived `FromPrimitive::from_u32`). -/
def ArmOpCode.from_u32 : Nat → Option ArmOpCode
  | 0 => some .AND
  | 1 => some .EOR
  | 2 => some .SUB
  | 3 => some .RSB
  | 4 => some .ADD
  | 5 => some .ADC
  | 6 => some .SBC
  | 7 => some .RSC
  | 8 => some .TST
  | 9 => some .TEQ
  | 10 => some .CMP
  | 11 => some .CMN
  | 12 => some .ORR
  | 13 => some .MOV
  | 14 => some .BIC
  | 15 => some .MVN
  | _ => none

/-- Single-bit accessor of the `BitIndex` trait: `w.bit(n)`. -/
def bit (w n : Nat) : Bool := w.testBit n

/-- Bit-range accessor of the `BitIndex` trait: `w.bit_range(lo..hi)`
extracts bits `lo` (inclusive) to `hi` (exclusive). -/
def bit_range (w lo hi : Nat) : Nat := (w >>> lo) % 2 ^ (hi - lo)

/-- The decoded instruction descriptor (`ArmInstruction` in the source). -/
structure ArmInstruction where
  cond : ArmCond
  fmt : ArmInstructionFormat
  raw : Nat
  pc : Nat
deriving DecidableEq, Repr

/-- The ordered mask/pattern rule chain of `ArmInstruction::try_from`,
including the duplicated Single-Data-Swap test of the source. -/
def classifyFormat (raw : Nat) : Except ArmError ArmInstructionFormat :=
  if 0x0ffffff0 &&& raw = 0x012fff10 then .ok .BX
  else if 0x0e000000 &&& raw = 0x0a000000 then .ok .B_BL
  else if 0x0fc000f0 &&& raw = 0x00000090 then .ok .MUL_MLA
  else if 0x0f8000f0 &&& raw = 0x00800090 then .ok .MULL_MLAL
  else if 0x0c000000 &&& raw = 0x04000000 then .ok .LDR_STR
  else if 0x0e400f90 &&& raw = 0x00000090 then .ok .LDR_STR_HS_REG
  else if 0x0e400090 &&& raw = 0x00400090 then .ok .LDR_STR_HS_IMM
  else if 0x0e000000 &&& raw = 0x08000000 then .ok .LDM_STM
  else if 0x0fb00ff0 &&& raw = 0x01000090 then .ok .SWP
  else if 0x0fbf0fff &&& raw = 0x010f0000 then .ok .MRS
  else if 0x0fbffff0 &&& raw = 0x0129f000 then .ok .MSR_REG
  else if 0x0dbff000 &&& raw = 0x0128f000 then .ok .MSR_FLAGS
  else if 0x0fb00ff0 &&& raw = 0x01000090 then .ok .SWP
  else if 0x0c000000 &&& raw = 0x00000000 then .ok .DP
  else .error (.UnknownInstructionFormat raw)

/-- The decoder `ArmInstruction::try_from((raw, addr))`: condition check
first, then format classification, then descriptor construction. -/
def ArmInstruction.try_from (raw addr : Nat) : Except ArmError ArmInstruction :=
  match ArmCond.from_u8 (bit_range raw 28 32) with
  | none => .error (.UndefinedConditionCode (bit_range raw 28 32))
  | some cond =>
    match classifyFormat raw with
    | .error e => .error e
    | .ok fmt => .ok ⟨cond, fmt, raw, addr⟩

/-- The four shift types (`ArmShiftType` in the source). -/
inductive ArmShiftType where
  | LSL
  | LSR
  | ASR
  | ROR
deriving DecidableEq, Repr

/-- Conversion from a numeric code (the derived `FromPrimitive::from_u8`). -/
def ArmShiftType.from_u8 : Nat → Option ArmShiftType
  | 0 => some .LSL
  | 1 => some .LSR
  | 2 => some .ASR
  | 3 => some .ROR
  | _ => none

/-- Shift descriptor (`ArmShift` in the source). -/
inductive ArmShift where
  | ImmediateShift (amount : Nat) (t : ArmShiftType)
  | RegisterShift (rs : Nat) (t : ArmShiftType)
deriving DecidableEq, Repr

/-- The fallible shift decoder `ArmShift::try_from(v)` on a 12-bit sub-field. -/
def ArmShift.try_from (v : Nat) : Except ArmError ArmShift :=
  match ArmShiftType.from_u8 (bit_range v 5 7) with
  | none => .error (.InvalidShiftType (bit_range v 5 7))
  | some typ =>
    if bit v 4 then .ok (.RegisterShift (bit_range v 8 12) typ)
    else .ok (.ImmediateShift (bit_range v 7 12) typ)

/-- Decoded operand value (`ArmInstructionShiftValue` in the source). -/
inductive ArmInstructionShiftValue where
  | ImmediateValue (v : Nat)
  | RotatedImmediate (immediate rotate : Nat)
  | ShiftedRegister (reg : Nat) (s : ArmShift)
deriving DecidableEq, Repr

/-- Rust `u32::rotate_right`: rotate the low 32 bits right by `n % 32`. -/
def rotateRight32 (x n : Nat) : Nat :=
  ((x >>> (n % 32)) ||| (x <<< (32 - n % 32))) % 2 ^ 32

/-- Reinterpretation of a `u32` value as an `i32` (Rust `as i32`). -/
def asI32 (x : Nat) : Int :=
  if x % 2 ^ 32 < 2 ^ 31 then ((x % 2 ^ 32 : Nat) : Int)
  else ((x % 2 ^ 32 : Nat) : Int) - 2 ^ 32

/-- Method `ArmInstructionShiftValue::decode_rotated_immediate`. -/
def ArmInstructionShiftValue.decode_rotated_immediate :
    ArmInstructionShiftValue → Option Int
  | .RotatedImmediate immediate rotate => some (asI32 (rotateRight32 immediate rotate))
  | _ => none

namespace ArmInstruction

/-- Accessor `rn`: base-register index, format-dependent. -/
def rn (i : ArmInstruction) : Nat :=
  match i.fmt with
  | .MUL_MLA => bit_range i.raw 12 16
  | .MULL_MLAL => bit_range i.raw 8 12
  | .BX => bit_range i.raw 0 4
  | _ => bit_range i.raw 16 20

/-- Accessor `rd`: destination-register index, format-dependent. -/
def rd (i : ArmInstruction) : Nat :=
  match i.fmt with
  | .MUL_MLA => bit_range i.raw 16 20
  | _ => bit_range i.raw 12 16

/-- Accessor `rm`: operand-register index, bits 0-4. -/
def rm (i : ArmInstruction) : Nat := bit_range i.raw 0 4

/-- Accessor `opcode`: data-processing opcode from bits 21-25. -/
def opcode (i : ArmInstruction) : Option ArmOpCode :=
  ArmOpCode.from_u32 (bit_range i.raw 21 25)

/-- Accessor `branch_offset`: `((((raw << 8) as i32) >> 8) << 2) + 8`,
with the `i32` arithmetic right shift modelled as flooring division and
the in-range left shift as multiplication. -/
def branch_offset (i : ArmInstruction) : Int :=
  (asI32 ((i.raw <<< 8) % 2 ^ 32)).fdiv (2 ^ 8) * 2 ^ 2 + 8

/-- Accessor `offset`: the `unwrap` on the shift decoder is modelled as
`Option`, `none` standing for the panic. -/
def offset (i : ArmInstruction) : Option ArmInstructionShiftValue :=
  if bit i.raw 25 then
    match ArmShift.try_from (bit_range i.raw 0 12) with
    | .ok shift => some (.ShiftedRegister (bit_range i.raw 0 12 &&& 0xf) shift)
    | .error _ => none
  else some (.ImmediateValue (bit_range i.raw 0 12))

/-- Accessor `operand2`: the `unwrap` on the shift decoder is modelled as
`Option`, `none` standing for the panic. -/
def operand2 (i : ArmInstruction) : Option ArmInstructionShiftValue :=
  if bit i.raw 25 then
    some (.RotatedImmediate (bit_range i.raw 0 12 &&& 0xff)
      (2 * bit_range (bit_range i.raw 0 12) 8 12))
  else
    match ArmShift.try_from (bit_range i.raw 0 12) with
    | .ok shift => some (.ShiftedRegister (bit_range i.raw 0 12 &&& 0xf) shift)
    | .error _ => none

/-- Accessor `register_list`: the loop over `0..16` pushing each index
whose bit is set in the low 16 bits, rendered as a filter of `range 16`. -/
def register_list (i : ArmInstruction) : List Nat :=
  (List.range 16).filter (fun r => decide ((i.raw &&& 0xffff) &&& (1 <<< r) ≠ 0))

end ArmInstruction

/-- Predicate: the word matches at least one of the 13 distinct
mask/pattern rules of the classification table. -/
def matchesAnyRule (raw : Nat) : Prop :=
  0x0ffffff0 &&& raw = 0x012fff10 ∨
  0x0e000000 &&& raw = 0x0a000000 ∨
  0x0fc000f0 &&& raw = 0x00000090 ∨
  0x0f8000f0 &&& raw = 0x00800090 ∨
  0x0c000000 &&& raw = 0x04000000 ∨
  0x0e400f90 &&& raw = 0x00000090 ∨
  0x0e400090 &&& raw = 0x00400090 ∨
  0x0e000000 &&& raw = 0x08000000 ∨
  0x0fb00ff0 &&& raw = 0x01000090 ∨
  0x0fbf0fff &&& raw = 0x010f0000 ∨
  0x0fbffff0 &&& raw = 0x0129f000 ∨
  0x0dbff000 &&& raw = 0x0128f000 ∨
  0x0c000000 &&& raw = 0x00000000

instance (raw : Nat) : Decidable (matchesAnyRule raw) := by
  unfold matchesAnyRule; infer_instance

/-- Rule chain of the classifier with the duplicated Single-Data-Swap
test removed, as the spec directs implementers to do. -/
def classifyFormatNoDup (raw : Nat) : Except ArmError ArmInstructionFormat :=
  if 0x0ffffff0 &&& raw = 0x012fff10 then .ok .BX
  else if 0x0e000000 &&& raw = 0x0a000000 then .ok .B_BL
  else if 0x0fc000f0 &&& raw = 0x00000090 then .ok .MUL_MLA
  else if 0x0f8000f0 &&& raw = 0x00800090 then .ok .MULL_MLAL
  else if 0x0c000000 &&& raw = 0x04000000 then .ok .LDR_STR
  else if 0x0e400f90 &&& raw = 0x00000090 then .ok .LDR_STR_HS_REG
  else if 0x0e400090 &&& raw = 0x00400090 then .ok .LDR_STR_HS_IMM
  else if 0x0e000000 &&& raw = 0x08000000 then .ok .LDM_STM
  else if 0x0fb00ff0 &&& raw = 0x01000090 then .ok .SWP
  else if 0x0fbf0fff &&& raw = 0x010f0000 then .ok .MRS
  else if 0x0fbffff0 &&& raw = 0x0129f000 then .ok .MSR_REG
  else if 0x0dbff000 &&& raw = 0x0128f000 then .ok .MSR_FLAGS
  else if 0x0c000000 &&& raw = 0x00000000 then .ok .DP
  else .error (.UnknownInstructionFormat raw)

/-- The decoder built on the de-duplicated rule chain. -/
def tryFromNoDup (raw addr : Nat) : Except ArmError ArmInstruction :=
  match ArmCond.from_u8 (bit_range raw 28 32) with
  | none => .error (.UndefinedConditionCode (bit_range raw 28 32))
  | some cond =>
    match classifyFormatNoDup raw with
    | .error e => .error e
    | .ok fmt => .ok ⟨cond, fmt, raw, addr⟩

/-- Number of set bits of a natural number, by low-bit recursion. -/
def popcount : Nat → Nat
  | 0 => 0
  | n + 1 => (n + 1) % 2 + popcount ((n + 1) / 2)

/-- Sign extension of a 24-bit value to a signed integer, as the spec
describes the branch-displacement computation. -/
def signExt24 (x : Nat) : Int :=
  if x < 2 ^ 23 then (x : Int) else (x : Int) - 2 ^ 24

/-! ### Helper lemmas -/

/-- Every condition code up to 14 converts to a named condition whose
numeric value is that code. -/
theorem from_u8_some_of_le (n : Nat) (h : n ≤ 14) :
    ∃ c : ArmCond, ArmCond.from_u8 n = some c ∧ c.toNat = n := by
  interval_cases n <;> exact ⟨_, rfl, rfl⟩

/-- Masking with `0xffff` keeps exactly the low 16 bits. -/
theorem low16_eq (w : Nat) : w &&& 0xffff = w % 2 ^ 16 := by
  rw [show (0xffff : Nat) = 2 ^ 16 - 1 from by norm_num,
    Nat.and_pow_two_sub_one_eq_mod]

/-- Seconds step of `popcount` as a single unfolding equation. -/
theorem popcount_eq (k : Nat) : popcount k = k % 2 + popcount (k / 2) := by
  cases k with
  | zero => simp [popcount]
  | succ k => rw [popcount]

/-! ### Claim theorems -/

/-- C10: a successful decode stores the given word and address verbatim
in the descriptor, with no adjustment. -/
theorem try_from_stores_inputs (raw addr : Nat) (d : ArmInstruction)
    (h : ArmInstruction.try_from raw addr = .ok d) : d.raw = raw ∧ d.pc = addr := by
  unfold ArmInstruction.try_from at h
  split at h
  · exact absurd h (by simp)
  · split at h
    · exact absurd h (by simp)
    · rw [Except.ok.injEq] at h
      subst h
      exact ⟨rfl, rfl⟩

/-- Witness for C10 at word `0xE3A00001` and address 7. -/
theorem try_from_stores_inputs_witness :
    ArmInstruction.try_from 0xE3A00001 7 =
      .ok ⟨.Always, .DP, 0xE3A00001, 7⟩ ∧
    (⟨.Always, .DP, 0xE3A00001, 7⟩ : ArmInstruction).raw = 0xE3A00001 ∧
    (⟨.Always, .DP, 0xE3A00001, 7⟩ : ArmInstruction).pc = 7 :=
  ⟨by decide, try_from_stores_inputs 0xE3A00001 7 _ (by decide)⟩

/-- C8: a word whose condition field is 15 always fails with the
reserved-condition error, before any format consideration. -/
theorem reserved_cond_precedes_format (raw addr : Nat)
    (h : bit_range raw 28 32 = 15) :
    ArmInstruction.try_from raw addr = .error (.UndefinedConditionCode 15) := by
  have h15 : ArmCond.from_u8 (bit_range raw 28 32) = none := by rw [h]; rfl
  unfold ArmInstruction.try_from
  rw [h15, h]

/-- Witness for C8 at word `0xF3A00001`. -/
theorem reserved_cond_precedes_format_witness :
    bit_range 0xF3A00001 28 32 = 15 ∧
    ArmInstruction.try_from 0xF3A00001 0 = .error (.UndefinedConditionCode 15) :=
  ⟨by decide, reserved_cond_precedes_format 0xF3A00001 0 (by decide)⟩

/-- C3: codes 0-14 decode to conditions with exactly those numeric
values, the numeric values are distinct across the 15 conditions, and a
word with condition field 15 fails with the reserved-condition error. -/
theorem condition_decoder_exact :
    (∀ n : Nat, n ≤ 14 → ∃ c : ArmCond, ArmCond.from_u8 n = some c ∧ c.toNat = n) ∧
    (∀ c c' : ArmCond, c.toNat = c'.toNat → c = c') ∧
    ArmCond.from_u8 15 = none ∧
    (∀ raw addr : Nat, bit_range raw 28 32 = 15 →
      ArmInstruction.try_from raw addr = .error (.UndefinedConditionCode 15)) := by
  refine ⟨from_u8_some_of_le, by decide, rfl, ?_⟩
  intro raw addr h
  have h15 : ArmCond.from_u8 (bit_range raw 28 32) = none := by rw [h]; rfl
  unfold ArmInstruction.try_from
  rw [h15, h]

/-- Witness for C3 at code 5 and word `0xF0000001`. -/
theorem condition_decoder_exact_witness :
    (∃ c : ArmCond, ArmCond.from_u8 5 = some c ∧ c.toNat = 5) ∧
    ArmInstruction.try_from 0xF0000001 3 = .error (.UndefinedConditionCode 15) :=
  ⟨condition_decoder_exact.1 5 (by decide),
   condition_decoder_exact.2.2.2 0xF0000001 3 (by decide)⟩

/-- Closed form of `branch_offset`: sign-extended low 24 bits, times 4,
plus 8. -/
theorem branch_offset_spec (i : ArmInstruction) :
    i.branch_offset = signExt24 (i.raw % 2 ^ 24) * 4 + 8 := by
  have hm : i.raw % 2 ^ 24 < 2 ^ 24 := Nat.mod_lt _ (by norm_num)
  have hx : (i.raw <<< 8) % 2 ^ 32 = (i.raw % 2 ^ 24) * 2 ^ 8 := by
    rw [Nat.shiftLeft_eq, show (2 : Nat) ^ 32 = 2 ^ 24 * 2 ^ 8 from by norm_num,
      Nat.mul_mod_mul_right]
  unfold ArmInstruction.branch_offset asI32 signExt24
  rw [hx]
  set m := i.raw % 2 ^ 24 with hmdef
  have hx2 : m * 2 ^ 8 % 2 ^ 32 = m * 2 ^ 8 := Nat.mod_eq_of_lt (by omega)
  rw [hx2]
  by_cases hc : m < 2 ^ 23
  · rw [if_pos (by omega), if_pos hc]
    push_cast
    rw [Int.mul_fdiv_cancel _ (by norm_num)]
  · rw [if_neg (by omega), if_neg hc]
    push_cast
    rw [show (m : Int) * 256 - 4294967296 = ((m : Int) - 16777216) * 256 from by ring,
      Int.mul_fdiv_cancel _ (by norm_num)]

/-- C5: `branch_offset` is the low 24 bits sign-extended, times 4, plus
8; low 24 bits `0x000001` give 12 and `0xFFFFFF` give 4. -/
theorem branch_offset_exact :
    (∀ i : ArmInstruction, i.branch_offset = signExt24 (i.raw % 2 ^ 24) * 4 + 8) ∧
    (∀ i : ArmInstruction, i.raw % 2 ^ 24 = 0x000001 → i.branch_offset = 12) ∧
    (∀ i : ArmInstruction, i.raw % 2 ^ 24 = 0xffffff → i.branch_offset = 4) := by
  refine ⟨branch_offset_spec, ?_, ?_⟩ <;> intro i h <;> rw [branch_offset_spec, h] <;> decide

/-- Witness for C5 on the words `0xEA000001` and `0xEAFFFFFF`. -/
theorem branch_offset_exact_witness :
    ((⟨.Always, .B_BL, 0xEA000001, 0⟩ : ArmInstruction).raw % 2 ^ 24 = 0x000001 ∧
     (⟨.Always, .B_BL, 0xEA000001, 0⟩ : ArmInstruction).branch_offset = 12) ∧
    ((⟨.Always, .B_BL, 0xEAFFFFFF, 0⟩ : ArmInstruction).raw % 2 ^ 24 = 0xffffff ∧
     (⟨.Always, .B_BL, 0xEAFFFFFF, 0⟩ : ArmInstruction).branch_offset = 4) :=
  ⟨⟨by decide, branch_offset_exact.2.1 _ (by decide)⟩,
   ⟨by decide, branch_offset_exact.2.2 _ (by decide)⟩⟩

/-- C1: a word matching the Branch-and-Exchange mask/pattern is
classified as `BX` by the first matching rule, even though it also
satisfies the Data-Processing fallback test. -/
theorem bx_wins_over_dp (raw addr : Nat)
    (hmask : 0x0ffffff0 &&& raw = 0x012fff10)
    (hcond : bit_range raw 28 32 ≤ 14) :
    0x0c000000 &&& raw = 0x00000000 ∧
    ∃ c : ArmCond, ArmInstruction.try_from raw addr = .ok ⟨c, .BX, raw, addr⟩ := by
  have hdp : 0x0c000000 &&& raw = 0x00000000 := by
    calc 0x0c000000 &&& raw
        = (0x0c000000 &&& 0x0ffffff0) &&& raw := by
          rw [show (0x0c000000 : Nat) &&& 0x0ffffff0 = 0x0c000000 from by decide]
      _ = 0x0c000000 &&& (0x0ffffff0 &&& raw) := Nat.land_assoc _ _ _
      _ = 0x0c000000 &&& 0x012fff10 := by rw [hmask]
      _ = 0x00000000 := by decide
  obtain ⟨c, hc, -⟩ := from_u8_some_of_le _ hcond
  have hfmt : classifyFormat raw = .ok .BX := by
    unfold classifyFormat
    rw [if_pos hmask]
  refine ⟨hdp, c, ?_⟩
  unfold ArmInstruction.try_from
  rw [hc, hfmt]

/-- Witness for C1 at word `0xE12FFF10`. -/
theorem bx_wins_over_dp_witness :
    (0x0ffffff0 &&& 0xE12FFF10 = 0x012fff10 ∧ bit_range 0xE12FFF10 28 32 ≤ 14) ∧
    (0x0c000000 &&& 0xE12FFF10 = 0x00000000 ∧
     ∃ c : ArmCond, ArmInstruction.try_from 0xE12FFF10 5 = .ok ⟨c, .BX, 0xE12FFF10, 5⟩) :=
  ⟨⟨by decide, by decide⟩, bx_wins_over_dp 0xE12FFF10 5 (by decide) (by decide)⟩

/-- Success marker on `Except`, used to state classification totality
without an existential under the if-chain. -/
def exceptIsOk {ε α : Type} : Except ε α → Bool
  | .ok _ => true
  | .error _ => false

/-- A word matching some rule classifies successfully. -/
theorem classify_isOk (raw : Nat) (hM : matchesAnyRule raw) :
    exceptIsOk (classifyFormat raw) = true := by
  unfold classifyFormat
  by_cases h1 : 0x0ffffff0 &&& raw = 0x012fff10
  · rw [if_pos h1]; rfl
  rw [if_neg h1]
  by_cases h2 : 0x0e000000 &&& raw = 0x0a000000
  · rw [if_pos h2]; rfl
  rw [if_neg h2]
  by_cases h3 : 0x0fc000f0 &&& raw = 0x00000090
  · rw [if_pos h3]; rfl
  rw [if_neg h3]
  by_cases h4 : 0x0f8000f0 &&& raw = 0x00800090
  · rw [if_pos h4]; rfl
  rw [if_neg h4]
  by_cases h5 : 0x0c000000 &&& raw = 0x04000000
  · rw [if_pos h5]; rfl
  rw [if_neg h5]
  by_cases h6 : 0x0e400f90 &&& raw = 0x00000090
  · rw [if_pos h6]; rfl
  rw [if_neg h6]
  by_cases h7 : 0x0e400090 &&& raw = 0x00400090
  · rw [if_pos h7]; rfl
  rw [if_neg h7]
  by_cases h8 : 0x0e000000 &&& raw = 0x08000000
  · rw [if_pos h8]; rfl
  rw [if_neg h8]
  by_cases h9 : 0x0fb00ff0 &&& raw = 0x01000090
  · rw [if_pos h9]; rfl
  rw [if_neg h9]
  by_cases h10 : 0x0fbf0fff &&& raw = 0x010f0000
  · rw [if_pos h10]; rfl
  rw [if_neg h10]
  by_cases h11 : 0x0fbffff0 &&& raw = 0x0129f000
  · rw [if_pos h11]; rfl
  rw [if_neg h11]
  by_cases h12 : 0x0dbff000 &&& raw = 0x0128f000
  · rw [if_pos h12]; rfl
  rw [if_neg h12, if_neg h9]
  by_cases h13 : 0x0c000000 &&& raw = 0x00000000
  · rw [if_pos h13]; rfl
  exfalso
  rcases hM with h | h | h | h | h | h | h | h | h | h | h | h | h
  exacts [h1 h, h2 h, h3 h, h4 h, h5 h, h6 h, h7 h, h8 h, h9 h, h10 h, h11 h, h12 h, h13 h]

/-- A word matching no rule classifies to the unknown-format error. -/
theorem classify_none (raw : Nat) (hM : ¬ matchesAnyRule raw) :
    classifyFormat raw = .error (.UnknownInstructionFormat raw) := by
  unfold matchesAnyRule at hM
  push_neg at hM
  obtain ⟨n1, n2, n3, n4, n5, n6, n7, n8, n9, n10, n11, n12, n13⟩ := hM
  unfold classifyFormat
  rw [if_neg n1, if_neg n2, if_neg n3, if_neg n4, if_neg n5, if_neg n6, if_neg n7,
    if_neg n8, if_neg n9, if_neg n10, if_neg n11, if_neg n12, if_neg n9, if_neg n13]

/-- Classification as an exhaustive case analysis: an `ok` result is
equivalent to matching some rule, the unknown-format error is equivalent
to matching none. -/
theorem classifyFormat_cases (raw : Nat) :
    ((∃ f, classifyFormat raw = .ok f) ↔ matchesAnyRule raw) ∧
    (classifyFormat raw = .error (.UnknownInstructionFormat raw) ↔ ¬ matchesAnyRule raw) := by
  constructor
  · constructor
    · rintro ⟨f, hf⟩
      by_contra hM
      rw [classify_none raw hM] at hf
      exact nomatch hf
    · intro hM
      have h := classify_isOk raw hM
      cases hcf : classifyFormat raw with
      | ok f => exact ⟨f, rfl⟩
      | error e => rw [hcf] at h; exact nomatch h
  · constructor
    · intro he hM
      have h := classify_isOk raw hM
      rw [he] at h
      exact nomatch h
    · exact classify_none raw

/-- C2: with a valid condition field, decoding succeeds exactly when the
word matches one of the 13 rules and fails with the unknown-format error
carrying the word exactly when it matches none. -/
theorem classification_total_exclusive (raw addr : Nat)
    (hcond : bit_range raw 28 32 ≤ 14) :
    ((∃ d, ArmInstruction.try_from raw addr = .ok d) ↔ matchesAnyRule raw) ∧
    (ArmInstruction.try_from raw addr = .error (.UnknownInstructionFormat raw) ↔
      ¬ matchesAnyRule raw) := by
  obtain ⟨c, hc, -⟩ := from_u8_some_of_le _ hcond
  by_cases hM : matchesAnyRule raw
  · obtain ⟨f, hf⟩ := (classifyFormat_cases raw).1.mpr hM
    unfold ArmInstruction.try_from
    rw [hc, hf]
    simp [hM]
  · have herr := (classifyFormat_cases raw).2.mpr hM
    unfold ArmInstruction.try_from
    rw [hc, herr]
    simp [hM]

/-- Witness for C2 at word `0xE3A00001`. -/
theorem classification_total_exclusive_witness :
    bit_range 0xE3A00001 28 32 ≤ 14 ∧
    ((∃ d, ArmInstruction.try_from 0xE3A00001 0 = .ok d) ↔ matchesAnyRule 0xE3A00001) ∧
    (ArmInstruction.try_from 0xE3A00001 0 = .error (.UnknownInstructionFormat 0xE3A00001) ↔
      ¬ matchesAnyRule 0xE3A00001) :=
  ⟨by decide, classification_total_exclusive 0xE3A00001 0 (by decide)⟩

/-- The two rule chains agree on every word: the duplicated test can
only be reached when its identical ninth copy has already failed. -/
theorem classify_nodup_eq (raw : Nat) :
    classifyFormat raw = classifyFormatNoDup raw := by
  unfold classifyFormat classifyFormatNoDup
  by_cases h1 : 0x0ffffff0 &&& raw = 0x012fff10
  · simp only [if_pos h1]
  simp only [if_neg h1]
  by_cases h2 : 0x0e000000 &&& raw = 0x0a000000
  · simp only [if_pos h2]
  simp only [if_neg h2]
  by_cases h3 : 0x0fc000f0 &&& raw = 0x00000090
  · simp only [if_pos h3]
  simp only [if_neg h3]
  by_cases h4 : 0x0f8000f0 &&& raw = 0x00800090
  · simp only [if_pos h4]
  simp only [if_neg h4]
  by_cases h5 : 0x0c000000 &&& raw = 0x04000000
  · simp only [if_pos h5]
  simp only [if_neg h5]
  by_cases h6 : 0x0e400f90 &&& raw = 0x00000090
  · simp only [if_pos h6]
  simp only [if_neg h6]
  by_cases h7 : 0x0e400090 &&& raw = 0x00400090
  · simp only [if_pos h7]
  simp only [if_neg h7]
  by_cases h8 : 0x0e000000 &&& raw = 0x08000000
  · simp only [if_pos h8]
  simp only [if_neg h8]
  by_cases h9 : 0x0fb00ff0 &&& raw = 0x01000090
  · simp only [if_pos h9]
  simp only [if_neg h9]

/-- C7: the decoder with the duplicate Single-Data-Swap rule removed is
extensionally equal to the decoder as written. -/
theorem try_from_eq_nodup :
    ∀ raw addr : Nat, ArmInstruction.try_from raw addr = tryFromNoDup raw addr := by
  intro raw addr
  unfold ArmInstruction.try_from tryFromNoDup
  simp only [classify_nodup_eq]

/-- An `Except` value marked successful is an `ok`. -/
theorem exists_ok_of_isOk {ε α : Type} {e : Except ε α} (h : exceptIsOk e = true) :
    ∃ a, e = .ok a := by
  cases e with
  | ok a => exact ⟨a, rfl⟩
  | error e => exact nomatch h

/-- The 2-bit shift-type field always converts to a shift type. -/
theorem shift_type_total (v : Nat) :
    ∃ t, ArmShiftType.from_u8 (bit_range v 5 7) = some t := by
  have h : bit_range v 5 7 < 4 := Nat.mod_lt _ (by norm_num)
  set k := bit_range v 5 7 with hk
  interval_cases k <;> exact ⟨_, rfl⟩

/-- The shift decoder succeeds on every input. -/
theorem shift_try_from_isOk (v : Nat) : exceptIsOk (ArmShift.try_from v) = true := by
  obtain ⟨t, ht⟩ := shift_type_total v
  unfold ArmShift.try_from
  rw [ht]
  show exceptIsOk (if bit v 4 = true then
      Except.ok (ArmShift.RegisterShift (bit_range v 8 12) t)
    else Except.ok (ArmShift.ImmediateShift (bit_range v 7 12) t)) = true
  by_cases hb : bit v 4 = true
  · rw [if_pos hb]; rfl
  · rw [if_neg hb]; rfl

/-- C6: the invalid-shift-type error is unreachable, `ArmShift::try_from`
succeeds on every 12-bit sub-field, the `unwrap` calls inside `offset`
and `operand2` never panic, and `opcode` always returns a value. -/
theorem accessors_never_fail :
    (∀ v : Nat, ∃ t, ArmShiftType.from_u8 (bit_range v 5 7) = some t) ∧
    (∀ v : Nat, ∃ s, ArmShift.try_from v = .ok s) ∧
    (∀ i : ArmInstruction,
      i.offset.isSome = true ∧ i.operand2.isSome = true ∧ i.opcode.isSome = true) := by
  have hshift : ∀ v : Nat, ∃ s, ArmShift.try_from v = .ok s :=
    fun v => exists_ok_of_isOk (shift_try_from_isOk v)
  refine ⟨shift_type_total, hshift, fun i => ⟨?_, ?_, ?_⟩⟩
  · unfold ArmInstruction.offset
    by_cases hb : bit i.raw 25 = true
    · rw [if_pos hb]
      obtain ⟨s, hs⟩ := hshift (bit_range i.raw 0 12)
      rw [hs]
      rfl
    · rw [if_neg hb]
      rfl
  · unfold ArmInstruction.operand2
    by_cases hb : bit i.raw 25 = true
    · rw [if_pos hb]
      rfl
    · rw [if_neg hb]
      obtain ⟨s, hs⟩ := hshift (bit_range i.raw 0 12)
      rw [hs]
      rfl
  · unfold ArmInstruction.opcode
    have hlt : bit_range i.raw 21 25 < 16 := Nat.mod_lt _ (by norm_num)
    have hall : ∀ n, n < 16 → (ArmOpCode.from_u32 n).isSome = true := by decide
    exact hall _ hlt

/-- C4: with bit 25 set, `operand2` is the rotated-immediate form with
immediate bits 0-8 and rotate twice bits 8-12, decoded as that immediate
rotated right and reinterpreted as a signed 32-bit integer; word
`0xE3A00001` decodes to a Data-Processing MOV into register 0 with
operand value 1. -/
theorem operand2_rotated_spec (i : ArmInstruction) (hb : bit i.raw 25 = true) :
    i.operand2 = some (.RotatedImmediate (bit_range i.raw 0 8) (2 * bit_range i.raw 8 12)) ∧
    i.operand2.bind ArmInstructionShiftValue.decode_rotated_immediate =
      some (asI32 (rotateRight32 (bit_range i.raw 0 8) (2 * bit_range i.raw 8 12))) := by
  have ea : bit_range i.raw 0 12 &&& 0xff = bit_range i.raw 0 8 := by
    unfold bit_range
    rw [Nat.shiftRight_zero, show (0xff : Nat) = 2 ^ 8 - 1 from by norm_num,
      Nat.and_pow_two_sub_one_eq_mod]
    omega
  have eb : bit_range (bit_range i.raw 0 12) 8 12 = bit_range i.raw 8 12 := by
    unfold bit_range
    rw [Nat.shiftRight_zero, Nat.shiftRight_eq_div_pow, Nat.shiftRight_eq_div_pow]
    omega
  have hop : i.operand2 =
      some (.RotatedImmediate (bit_range i.raw 0 8) (2 * bit_range i.raw 8 12)) := by
    unfold ArmInstruction.operand2
    rw [if_pos hb, ea, eb]
  exact ⟨hop, by rw [hop]; rfl⟩

/-- C4: with bit 25 set, `operand2` is the rotated-immediate form with
immediate bits 0-8 and rotate twice bits 8-12, decoded as that immediate
rotated right and reinterpreted as a signed 32-bit integer; word
`0xE3A00001` decodes to a Data-Processing MOV into register 0 with
operand value 1. -/
theorem operand2_rotated_immediate :
    (∀ i : ArmInstruction, bit i.raw 25 = true →
      i.operand2 = some (.RotatedImmediate (bit_range i.raw 0 8) (2 * bit_range i.raw 8 12)) ∧
      i.operand2.bind ArmInstructionShiftValue.decode_rotated_immediate =
        some (asI32 (rotateRight32 (bit_range i.raw 0 8) (2 * bit_range i.raw 8 12)))) ∧
    (∀ addr : Nat, ∃ d : ArmInstruction,
      ArmInstruction.try_from 0xE3A00001 addr = .ok d ∧
      d.fmt = .DP ∧ d.opcode = some .MOV ∧ d.rd = 0 ∧
      d.operand2.bind ArmInstructionShiftValue.decode_rotated_immediate = some 1) := by
  refine ⟨operand2_rotated_spec, ?_⟩
  intro addr
  have hb : bit (0xE3A00001 : Nat) 25 = true := by decide
  have er : (⟨.Always, .DP, 0xE3A00001, addr⟩ : ArmInstruction).raw = 0xE3A00001 := rfl
  have hrot := (operand2_rotated_spec ⟨.Always, .DP, 0xE3A00001, addr⟩ hb).1
  rw [er] at hrot
  have e1 : (⟨.Always, .DP, 0xE3A00001, addr⟩ : ArmInstruction).opcode =
      ArmOpCode.from_u32 (bit_range 0xE3A00001 21 25) := rfl
  have e2 : (⟨.Always, .DP, 0xE3A00001, addr⟩ : ArmInstruction).rd =
      bit_range 0xE3A00001 12 16 := rfl
  refine ⟨⟨.Always, .DP, 0xE3A00001, addr⟩, rfl, rfl, ?_, ?_, ?_⟩
  · rw [e1]; decide
  · rw [e2]; decide
  · rw [hrot]; decide

/-- Witness for C4 at word `0xE3A00001`. -/
theorem operand2_rotated_immediate_witness :
    bit (0xE3A00001 : Nat) 25 = true ∧
    ((⟨.Always, .DP, 0xE3A00001, 0⟩ : ArmInstruction).operand2 =
      some (.RotatedImmediate (bit_range 0xE3A00001 0 8) (2 * bit_range 0xE3A00001 8 12)) ∧
     (⟨.Always, .DP, 0xE3A00001, 0⟩ : ArmInstruction).operand2.bind
        ArmInstructionShiftValue.decode_rotated_immediate =
      some (asI32 (rotateRight32 (bit_range 0xE3A00001 0 8)
        (2 * bit_range 0xE3A00001 8 12)))) :=
  ⟨by decide, operand2_rotated_immediate.1 ⟨.Always, .DP, 0xE3A00001, 0⟩ (by decide)⟩

/-- The source loop's nonzero-mask test is exactly a bit test. -/
theorem and_shift_ne_zero_eq_testBit (m r : Nat) :
    decide (m &&& (1 <<< r) ≠ 0) = m.testBit r := by
  rw [Nat.shiftLeft_eq, one_mul, Nat.and_two_pow]
  cases h : m.testBit r <;> simp [h, (Nat.two_pow_pos r).ne']

/-- Counting the set bits among the low `n` equals `popcount` of the
value reduced mod `2^n`. -/
theorem countP_range_testBit (n m : Nat) :
    (List.range n).countP (fun r => m.testBit r) = popcount (m % 2 ^ n) := by
  induction n generalizing m with
  | zero => simp [Nat.mod_one, popcount]
  | succ n ih =>
    rw [List.range_succ_eq_map, List.countP_cons, List.countP_map]
    have hcomp : ((fun r => m.testBit r) ∘ Nat.succ) = fun r => (m / 2).testBit r := by
      funext r
      simp [Function.comp, Nat.testBit_succ]
    rw [hcomp, ih]
    have h2 : m % 2 ^ (n + 1) % 2 = m % 2 :=
      Nat.mod_mod_of_dvd m (dvd_pow_self 2 n.succ_ne_zero)
    have h3 : m % 2 ^ (n + 1) / 2 = m / 2 % 2 ^ n := by
      rw [pow_succ, mul_comm, Nat.mod_mul_right_div_self]
    rw [popcount_eq (m % 2 ^ (n + 1)), h2, h3]
    rcases Nat.mod_two_eq_zero_or_one m with h | h
    all_goals simp [Nat.testBit_zero, h]
    all_goals omega

/-- C9: `register_list` is the strictly ascending list of the indices
0-15 whose bit is set in the low 16 bits, its length is the number of
set bits there (at most 16), and low bits `0b101` give `[0, 2]`. -/
theorem register_list_exact :
    (∀ i : ArmInstruction,
      List.Sorted (· < ·) i.register_list ∧
      (∀ r : Nat, r ∈ i.register_list ↔ r < 16 ∧ i.raw.testBit r = true) ∧
      i.register_list.length = popcount (i.raw % 2 ^ 16) ∧
      i.register_list.length ≤ 16) ∧
    (∀ i : ArmInstruction, i.raw % 2 ^ 16 = 0b0000000000000101 →
      i.register_list = [0, 2]) := by
  constructor
  · intro i
    have hsorted : List.Sorted (· < ·) i.register_list :=
      List.Pairwise.filter _ (List.sorted_lt_range 16)
    have hmem : ∀ r : Nat, r ∈ i.register_list ↔ r < 16 ∧ i.raw.testBit r = true := by
      intro r
      have key : (decide ((i.raw &&& 0xffff) &&& (1 <<< r) ≠ 0) = true) ↔
          (decide (r < 16) && i.raw.testBit r) = true := by
        rw [and_shift_ne_zero_eq_testBit, low16_eq, Nat.testBit_mod_two_pow]
      unfold ArmInstruction.register_list
      rw [List.mem_filter, List.mem_range, key]
      simp only [Bool.and_eq_true, decide_eq_true_eq]
      tauto
    have hlen : i.register_list.length = popcount (i.raw % 2 ^ 16) := by
      have hpred : (fun r => decide ((i.raw &&& 0xffff) &&& (1 <<< r) ≠ 0)) =
          fun r => (i.raw &&& 0xffff).testBit r := by
        funext r
        exact and_shift_ne_zero_eq_testBit _ r
      unfold ArmInstruction.register_list
      rw [← List.countP_eq_length_filter, hpred, countP_range_testBit, low16_eq,
        Nat.mod_mod_of_dvd _ dvd_rfl]
    have hle : i.register_list.length ≤ 16 := by
      calc i.register_list.length ≤ (List.range 16).length := List.length_filter_le _ _
        _ = 16 := List.length_range 16
    exact ⟨hsorted, hmem, hlen, hle⟩
  · intro i h
    have h5 : i.raw &&& 0xffff = 5 := by rw [low16_eq, h]
    unfold ArmInstruction.register_list
    simp only [h5]
    decide

/-- Witness for C9 at word `0xE8BD0005`. -/
theorem register_list_exact_witness :
    (⟨.Always, .LDM_STM, 0xE8BD0005, 0⟩ : ArmInstruction).raw % 2 ^ 16 =
      0b0000000000000101 ∧
    (⟨.Always, .LDM_STM, 0xE8BD0005, 0⟩ : ArmInstruction).register_list = [0, 2] :=
  ⟨by decide, register_list_exact.2 _ (by decide)⟩

end ArmDecode
